import Mathlib

/-!
# Verification of the NES-emu core (CPU bus + APU)

Shallow embedding of `src/src/nes.rs` (status register codec, system bus,
stack) and `src/nes_core/src/apu.rs` (sample buffer, oscillators, APU
orchestrator).  Machine integers (`u8`, `u16`, `u32`, `u64`) are modelled as
`ℕ` with explicit `% 2^w` at the operations where the Rust code wraps
(`wrapping_add`, `wrapping_sub`, `as u8` truncation); floating point
(`f32`/`f64`) is modelled as exact rational arithmetic `ℚ`.
-/

namespace NESEmu

/-! ## src/src/nes.rs -/

/-- The six architectural status flags (`struct StatusRegister`). -/
structure StatusRegister where
  C : Bool
  Z : Bool
  I : Bool
  D : Bool
  V : Bool
  N : Bool
deriving DecidableEq

/-- `StatusRegister::FLAG_C` -/
def FLAG_C : ℕ := 0b00000001
/-- `StatusRegister::FLAG_Z` -/
def FLAG_Z : ℕ := 0b00000010
/-- `StatusRegister::FLAG_I` -/
def FLAG_I : ℕ := 0b00000100
/-- `StatusRegister::FLAG_D` -/
def FLAG_D : ℕ := 0b00001000
/-- `StatusRegister::FLAG_B` -/
def FLAG_B : ℕ := 0b00010000
/-- `StatusRegister::FLAG_U` -/
def FLAG_U : ℕ := 0b00100000
/-- `StatusRegister::FLAG_V` -/
def FLAG_V : ℕ := 0b01000000
/-- `StatusRegister::FLAG_N` -/
def FLAG_N : ℕ := 0b10000000

/-- `StatusRegister::to_byte`: pack the six flags into a byte, with the
unused bit 5 (`FLAG_U`) always set and bit 4 never set. -/
def StatusRegister.to_byte (s : StatusRegister) : ℕ :=
  s.C.toNat |||
  (s.Z.toNat <<< 1) |||
  (s.I.toNat <<< 2) |||
  (s.D.toNat <<< 3) |||
  FLAG_U |||
  (s.V.toNat <<< 6) |||
  (s.N.toNat <<< 7)

/-- `StatusRegister::from_byte`: decode the six flags from a byte
(bits 4 and 5 are ignored). -/
def StatusRegister.from_byte (value : ℕ) : StatusRegister :=
  { C := value &&& FLAG_C != 0
    Z := value &&& FLAG_Z != 0
    I := value &&& FLAG_I != 0
    D := value &&& FLAG_D != 0
    V := value &&& FLAG_V != 0
    N := value &&& FLAG_N != 0 }

/-- `struct NES`: processor registers, cycle counter and the 2 KiB RAM.
`cycles` is the `u64` cycle counter; `SP` is the `u8` stack pointer kept in
`[0,256)` by the stack operations; `PC` is the `u16` program counter. -/
structure NES where
  cycles : ℕ
  A : ℕ
  X : ℕ
  Y : ℕ
  SP : ℕ
  SR : StatusRegister
  PC : ℕ
  ram : Fin 2048 → ℕ

/-- `NES::read8`: bump the cycle counter; addresses below `0x2000` read
mirrored RAM (`addr % 0x800`), anything else logs and returns 0. -/
def NES.read8 (s : NES) (addr : ℕ) : ℕ × NES :=
  let s' : NES := { s with cycles := s.cycles + 1 }
  if addr < 0x2000 then
    (s'.ram ⟨addr % 0x800, Nat.mod_lt addr (by norm_num)⟩, s')
  else
    (0, s')

/-- `NES::write8`: bump the cycle counter; addresses below `0x2000` store to
mirrored RAM, anything else logs and drops the write. -/
def NES.write8 (s : NES) (addr val : ℕ) : NES :=
  let s' : NES := { s with cycles := s.cycles + 1 }
  if addr < 0x2000 then
    { s' with ram := Function.update s'.ram ⟨addr % 0x800, Nat.mod_lt addr (by norm_num)⟩ val }
  else s'

/-- `NES::read_addr`: little-endian 16-bit read, low byte first; the second
address uses `u16::wrapping_add`. -/
def NES.read_addr (s : NES) (addr : ℕ) : ℕ × NES :=
  let r1 := s.read8 addr
  let r2 := r1.2.read8 ((addr + 1) % 65536)
  ((r2.1 <<< 8) ||| r1.1, r2.2)

/-- `NES::read_code`: fetch at `PC` and advance `PC` with wraparound. -/
def NES.read_code (s : NES) : ℕ × NES :=
  let r := s.read8 s.PC
  (r.1, { r.2 with PC := (r.2.PC + 1) % 65536 })

/-- `NES::read_code_addr`: two code fetches, low byte first. -/
def NES.read_code_addr (s : NES) : ℕ × NES :=
  let r1 := s.read_code
  let r2 := r1.2.read_code
  ((r2.1 <<< 8) ||| r1.1, r2.2)

/-- `NES::push8`: store at `0x0100 + SP`, then decrement `SP` with 8-bit
wraparound (`u8::wrapping_sub(1)` is `(SP + 255) % 256` for `SP < 256`). -/
def NES.push8 (s : NES) (value : ℕ) : NES :=
  let s1 := s.write8 (0x0100 + s.SP) value
  { s1 with SP := (s1.SP + 255) % 256 }

/-- `NES::pop8`: increment `SP` with 8-bit wraparound, then load from
`0x0100 + SP`. -/
def NES.pop8 (s : NES) : ℕ × NES :=
  let s1 : NES := { s with SP := (s.SP + 1) % 256 }
  s1.read8 (0x0100 + s1.SP)

/-- `NES::push16`: high byte first, then low byte (`as u8` truncates). -/
def NES.push16 (s : NES) (value : ℕ) : NES :=
  (s.push8 ((value >>> 8) % 256)).push8 (value &&& 0xFF)

/-- `NES::pop16`: low byte first, then high byte. -/
def NES.pop16 (s : NES) : ℕ × NES :=
  let r1 := s.pop8
  let r2 := r1.2.pop8
  ((r2.1 <<< 8) ||| r1.1, r2.2)

/-- A concrete power-on state used to instantiate universally quantified
theorems on concrete inputs. -/
def NES.init : NES :=
  { cycles := 0, A := 0, X := 0, Y := 0, SP := 0xFD
    SR := ⟨false, false, false, false, false, false⟩
    PC := 0, ram := fun _ => 0 }

/-! ## src/nes_core/src/apu.rs

`f32`/`f64` sample values and times are modelled as exact rationals; the
`f64 % 1.0` operation is `Int.fract` and `as usize` / `as i64` truncation of
the non-negative quantities arising here is `Int.floor` composed with
`Int.toNat` (respectively plain `Int.floor`). -/

/-- `const CPU_FREQ: u32 = 1_789_773` -/
def CPU_FREQ : ℕ := 1789773

/-- `struct SquareWave` -/
structure SquareWave where
  volume : ℚ
  duty_cycle : ℚ
  period : ℕ

/-- `SquareWave::new` -/
def SquareWave.new : SquareWave :=
  { volume := 1.0, duty_cycle := 0.5, period := 0 }

/-- `SquareWave::output_samples`: fills a buffer of `n` samples for the
window starting at `step_start_time_s` of length `step_duration_s`.
Muted (all zeroes) when `period < 8`. -/
def SquareWave.output_samples (w : SquareWave)
    (step_start_time_s step_duration_s : ℚ) (n : ℕ) : List ℚ :=
  if w.period < 8 then
    List.replicate n 0
  else
    let period_s : ℚ := ((16 * (w.period + 1) : ℕ) : ℚ) / (CPU_FREQ : ℚ)
    let time_step := step_duration_s / (n : ℚ)
    (List.range n).map fun i =>
      let now_s := step_start_time_s + time_step * (i : ℚ)
      let phase := Int.fract (now_s / period_s)
      if phase ≤ w.duty_cycle then w.volume else -w.volume

/-- `SquareWave::write_coarse_tune` (`$4003/$4007`) -/
def SquareWave.write_coarse_tune (w : SquareWave) (value : ℕ) : SquareWave :=
  { w with period := w.period &&& 0x00FF ||| ((value &&& 0x7) <<< 8) }

/-- `SquareWave::write_fine_tune` (`$4002/$4006`) -/
def SquareWave.write_fine_tune (w : SquareWave) (value : ℕ) : SquareWave :=
  { w with period := w.period &&& 0xFF00 ||| value }

/-- `SquareWave::write_control` (`$4000/$4004`): duty cycle from the top two
bits of the byte. -/
def SquareWave.write_control (w : SquareWave) (value : ℕ) : SquareWave :=
  { w with duty_cycle :=
      if value >>> 6 = 0 then 0.125
      else if value >>> 6 = 1 then 0.25
      else if value >>> 6 = 2 then 0.5
      else 0.75 }

/-- `SquareWave::write_ramp` (`$4001/$4005`): a no-op. -/
def SquareWave.write_ramp (w : SquareWave) (_value : ℕ) : SquareWave := w

/-- `struct TriangleWave` -/
structure TriangleWave where
  period : ℕ

/-- `TriangleWave::new` -/
def TriangleWave.new : TriangleWave := { period := 0 }

/-- `TriangleWave::output_samples`: muted (all zeroes) when `period < 2`,
otherwise a piecewise-linear triangle wave over four quadrants. -/
def TriangleWave.output_samples (w : TriangleWave)
    (step_start_time_s step_duration_s : ℚ) (n : ℕ) : List ℚ :=
  if w.period < 2 then
    List.replicate n 0
  else
    let period_s : ℚ := ((32 * (w.period + 1) : ℕ) : ℚ) / (CPU_FREQ : ℚ)
    let time_step := step_duration_s / (n : ℚ)
    (List.range n).map fun i =>
      let now_s := step_start_time_s + time_step * (i : ℚ)
      let scaled : ℚ := now_s / period_s * 4
      let cycle_phase : ℤ := ⌊scaled⌋ % 4
      let cycle_offset : ℚ := Int.fract scaled
      if cycle_phase = 0 then cycle_offset
      else if cycle_phase = 1 then 1 - cycle_offset
      else if cycle_phase = 2 then -cycle_offset
      else -1 + cycle_offset

/-- `TriangleWave::write_control` (`$4008`): a no-op. -/
def TriangleWave.write_control (w : TriangleWave) (_value : ℕ) : TriangleWave := w

/-- `TriangleWave::write_fine_tune` (`$400A`) -/
def TriangleWave.write_fine_tune (w : TriangleWave) (value : ℕ) : TriangleWave :=
  { w with period := w.period &&& 0xFF00 ||| value }

/-- `TriangleWave::write_coarse_tune` (`$400B`) -/
def TriangleWave.write_coarse_tune (w : TriangleWave) (value : ℕ) : TriangleWave :=
  { w with period := w.period &&& 0x00FF ||| ((value &&& 0x7) <<< 8) }

/-- `struct SampleBuffer`: the FIFO queue of mixed samples plus the sample
rate.  (The `Arc<Mutex<VecDeque>>` sharing wrapper is modelled by explicit
state passing of the queue contents.) -/
structure SampleBuffer where
  buffer : List ℚ
  samples_per_second : ℕ

/-- `SampleBuffer::new` -/
def SampleBuffer.new (freq : ℕ) : SampleBuffer :=
  { buffer := [], samples_per_second := freq }

/-- The consumer loop of `SampleBuffer::output_samples`: each of the `n`
output slots receives `pop_front().unwrap_or(0.0)`.  Returns the filled
output and the remaining queue. -/
def popFrontFill : List ℚ → ℕ → List ℚ × List ℚ
  | q, 0 => ([], q)
  | [], n + 1 =>
    let r := popFrontFill [] n
    (0 :: r.1, r.2)
  | x :: q, n + 1 =>
    let r := popFrontFill q n
    (x :: r.1, r.2)

/-- `SampleBuffer::output_samples`: pops up to `n` samples into the output
slice, padding with silence when the queue runs dry. -/
def SampleBuffer.output_samples (b : SampleBuffer) (n : ℕ) : List ℚ × SampleBuffer :=
  let r := popFrontFill b.buffer n
  (r.1, { b with buffer := r.2 })

/-- `SampleBuffer::write_samples`: appends all samples to the queue. -/
def SampleBuffer.write_samples (b : SampleBuffer) (samples : List ℚ) : SampleBuffer :=
  { b with buffer := b.buffer ++ samples }

/-- `SampleBuffer::clear` -/
def SampleBuffer.clear (b : SampleBuffer) : SampleBuffer :=
  { b with buffer := [] }

/-- `AudioChannels::SQUARE1` -/
def SQUARE1 : ℕ := 0x01
/-- `AudioChannels::SQUARE2` -/
def SQUARE2 : ℕ := 0x02
/-- `AudioChannels::TRIANGLE` -/
def TRIANGLE : ℕ := 0x04
/-- `AudioChannels::NOISE` -/
def NOISE : ℕ := 0x08
/-- `AudioChannels::DMC` -/
def DMC : ℕ := 0x10
/-- `AudioChannels::all()`: union of the five defined flags. -/
def ALL_CHANNELS : ℕ := 0x1F

/-- `struct APU`: the `AudioChannels` bitflag masks are `u8` bitmasks. -/
structure APU where
  output_buffer : Option SampleBuffer
  square_wave1 : SquareWave
  square_wave2 : SquareWave
  triangle_wave : TriangleWave
  guest_enabled_channels : ℕ
  host_enabled_channels : ℕ
  sq1_samples : List ℚ
  sq2_samples : List ℚ
  tri_samples : List ℚ
  mixed_samples : List ℚ
  last_cpu_cycles : ℕ

/-- `APU::new`: no output device, all-muted guest mask
(`AudioChannels::empty()`), full host mask (`AudioChannels::all()`). -/
def APU.new : APU :=
  { output_buffer := none
    square_wave1 := SquareWave.new
    square_wave2 := SquareWave.new
    triangle_wave := TriangleWave.new
    guest_enabled_channels := 0
    host_enabled_channels := ALL_CHANNELS
    sq1_samples := []
    sq2_samples := []
    tri_samples := []
    mixed_samples := []
    last_cpu_cycles := 0 }

/-- `APU::attach_output_device` -/
def APU.attach_output_device (a : APU) (output_buffer : SampleBuffer) : APU :=
  { a with output_buffer := some output_buffer }

/-- `APU::channel_enabled`: bitflags `contains` on the AND of the host and
guest masks (all bits of `channel` must be present). -/
def APU.channel_enabled (a : APU) (channel : ℕ) : Bool :=
  (a.host_enabled_channels &&& a.guest_enabled_channels) &&& channel == channel

/-- `APU::toggle_channel`: bitflags `toggle` is XOR on the underlying bits
(the log line has no state effect). -/
def APU.toggle_channel (a : APU) (channel : ℕ) : APU :=
  { a with host_enabled_channels := a.host_enabled_channels ^^^ channel }

/-- `self.output_buffer.as_ref().map(|b| b.samples_per_second).unwrap_or(0)` -/
def APU.sampleRate (a : APU) : ℕ :=
  (a.output_buffer.map SampleBuffer.samples_per_second).getD 0

/-- `start_time_s = start_cpu_cycle as f64 / CPU_FREQ as f64` -/
def APU.startTime (a : APU) : ℚ :=
  (a.last_cpu_cycles : ℚ) / (CPU_FREQ : ℚ)

/-- `step_duration_s = (end_cpu_cycle - start_cpu_cycle) as f64 / CPU_FREQ as f64`
(the `u64` subtraction requires `end ≥ start`, which every caller upholds). -/
def APU.stepDuration (a : APU) (end_cpu_cycle : ℕ) : ℚ :=
  ((end_cpu_cycle - a.last_cpu_cycles : ℕ) : ℚ) / (CPU_FREQ : ℚ)

/-- `samples_to_output = (samples_per_second as f64 * step_duration_s) as usize`
(truncation of a non-negative value is `floor`). -/
def APU.samplesToOutput (a : APU) (end_cpu_cycle : ℕ) : ℕ :=
  ⌊(a.sampleRate : ℚ) * a.stepDuration end_cpu_cycle⌋.toNat

/-- `Vec::resize(n, v)`: truncate to `n` elements or pad with `v` up to `n`. -/
def listResize (l : List ℚ) (n : ℕ) (v : ℚ) : List ℚ :=
  l.take n ++ List.replicate (n - l.length) v

/-- `APU::run_until_cycle`.  The four scratch vectors are resized to the
sample count; an enabled channel's oscillator then overwrites every slot of
its scratch vector, so the enabled case is the oscillator output and the
disabled case is the zero-padded resize.  The mixing loop writes every index
of `mixed_samples`, hence it is the map of the mixing formula over the
per-channel samples.  The mixed buffer is appended to the output device's
queue when non-empty, and the watermark advances unconditionally. -/
def APU.run_until_cycle (a : APU) (end_cpu_cycle : ℕ) : APU :=
  let n := a.samplesToOutput end_cpu_cycle
  let sq1 :=
    if a.channel_enabled SQUARE1 then
      a.square_wave1.output_samples a.startTime (a.stepDuration end_cpu_cycle) n
    else listResize a.sq1_samples n 0
  let sq2 :=
    if a.channel_enabled SQUARE2 then
      a.square_wave2.output_samples a.startTime (a.stepDuration end_cpu_cycle) n
    else listResize a.sq2_samples n 0
  let tri :=
    if a.channel_enabled TRIANGLE then
      a.triangle_wave.output_samples a.startTime (a.stepDuration end_cpu_cycle) n
    else listResize a.tri_samples n 0
  let mixed := (List.range n).map fun i =>
    let pulse1 := sq1.getD i 0
    let pulse2 := sq2.getD i 0
    let triangle := tri.getD i 0
    let noise : ℚ := 0
    let dmc : ℚ := 0
    let pulse_out := 0.00752 * (pulse1 + pulse2)
    let tnd_out := 0.00851 * triangle + 0.00494 * noise + 0.00335 * dmc
    pulse_out + tnd_out
  let ob :=
    if ¬ mixed.isEmpty then a.output_buffer.map (fun b => b.write_samples mixed)
    else a.output_buffer
  { a with
      sq1_samples := sq1
      sq2_samples := sq2
      tri_samples := tri
      mixed_samples := mixed
      output_buffer := ob
      last_cpu_cycles := end_cpu_cycle }

/-- `APU::write_register`: flush audio up to `cpu_cycle`, then dispatch on
the register address (`from_bits_truncate` keeps the low five bits). -/
def APU.write_register (a : APU) (addr value cpu_cycle : ℕ) : APU :=
  let a := a.run_until_cycle cpu_cycle
  if addr = 0x4000 then { a with square_wave1 := a.square_wave1.write_control value }
  else if addr = 0x4001 then { a with square_wave1 := a.square_wave1.write_ramp value }
  else if addr = 0x4002 then { a with square_wave1 := a.square_wave1.write_fine_tune value }
  else if addr = 0x4003 then { a with square_wave1 := a.square_wave1.write_coarse_tune value }
  else if addr = 0x4004 then { a with square_wave2 := a.square_wave2.write_control value }
  else if addr = 0x4005 then { a with square_wave2 := a.square_wave2.write_ramp value }
  else if addr = 0x4006 then { a with square_wave2 := a.square_wave2.write_fine_tune value }
  else if addr = 0x4007 then { a with square_wave2 := a.square_wave2.write_coarse_tune value }
  else if addr = 0x4008 then { a with triangle_wave := a.triangle_wave.write_control value }
  else if addr = 0x400A then { a with triangle_wave := a.triangle_wave.write_fine_tune value }
  else if addr = 0x400B then { a with triangle_wave := a.triangle_wave.write_coarse_tune value }
  else if addr = 0x4015 then { a with guest_enabled_channels := value &&& ALL_CHANNELS }
  else a

/-- The mixing formula of the nesdev APU mixer as written in the code's
mixing loop. -/
def mix (pulse1 pulse2 triangle noise dmc : ℚ) : ℚ :=
  0.00752 * (pulse1 + pulse2) + (0.00851 * triangle + 0.00494 * noise + 0.00335 * dmc)

end NESEmu

namespace NESEmu

/-! ## Helper lemmas -/

/-- `write8` on an in-range address: characterization. -/
lemma write8_in (s : NES) (a x : ℕ) (h : a < 0x2000) :
    s.write8 a x =
      { s with
          cycles := s.cycles + 1
          ram := Function.update s.ram ⟨a % 0x800, Nat.mod_lt a (by norm_num)⟩ x } := by
  simp only [NES.write8, if_pos h]

/-- `read8` on an in-range address: characterization. -/
lemma read8_in (s : NES) (a : ℕ) (h : a < 0x2000) :
    s.read8 a = (s.ram ⟨a % 0x800, Nat.mod_lt a (by norm_num)⟩,
      { s with cycles := s.cycles + 1 }) := by
  simp only [NES.read8, if_pos h]

/-- `push8` always lands in the RAM window when `SP` is a byte. -/
lemma push8_in (s : NES) (x : ℕ) (h : s.SP < 256) :
    s.push8 x =
      { s with
          cycles := s.cycles + 1
          ram := Function.update s.ram
            ⟨(0x100 + s.SP) % 0x800, Nat.mod_lt _ (by norm_num)⟩ x
          SP := (s.SP + 255) % 256 } := by
  rw [NES.push8, write8_in s (0x100 + s.SP) x (by omega)]

/-- `pop8` always reads from the RAM window. -/
lemma pop8_in (s : NES) :
    s.pop8 =
      (s.ram ⟨(0x100 + (s.SP + 1) % 256) % 0x800, Nat.mod_lt _ (by norm_num)⟩,
       { s with
           cycles := s.cycles + 1
           SP := (s.SP + 1) % 256 }) := by
  rw [NES.pop8, read8_in _ _ (by omega : 0x100 + (s.SP + 1) % 256 < 0x2000)]

/-- Reassembling a 16-bit value from its high and low bytes. -/
lemma high_low_recombine (v : ℕ) (hv : v < 65536) :
    (((v >>> 8) % 256) <<< 8) ||| (v &&& 0xFF) = v := by
  have h1 : v >>> 8 = v / 256 := by
    rw [Nat.shiftRight_eq_div_pow]
  have h2 : v / 256 < 256 := by omega
  have h4 : v &&& 0xFF = v % 256 := by
    have := Nat.and_pow_two_sub_one_eq_mod v 8
    norm_num at this; exact this
  rw [h1, Nat.mod_eq_of_lt h2, h4, Nat.shiftLeft_eq]
  have h5 : v % 256 < 2 ^ 8 := by omega
  calc v / 256 * 2 ^ 8 ||| v % 256 = 2 ^ 8 * (v / 256) ||| v % 256 := by ring_nf
    _ = 2 ^ 8 * (v / 256) + v % 256 := (Nat.mul_add_lt_is_or h5 _).symm
    _ = v := by omega

/-- The stack pointer after a run of pushes only depends on how many there
were (modulo 256). -/
lemma sp_after_push_run (vs : List ℕ) : ∀ s : NES, s.SP < 256 →
    (vs.foldl NES.push8 s).SP = (s.SP + 255 * vs.length) % 256 := by
  induction vs with
  | nil => intro s h; simp [Nat.mod_eq_of_lt h]
  | cons x xs ih =>
    intro s h
    simp only [List.foldl_cons, List.length_cons]
    rw [push8_in s x h]
    rw [ih _ (by simp; omega)]
    simp
    omega

/-! ## Claim theorems: system bus and registers -/

set_option maxRecDepth 4096 in
/-- C2: for every byte `b`, `to_byte (from_byte b)` is `b` with bit 5 forced
to 1 and bit 4 forced to 0; bits 0 (Carry), 1 (Zero), 2 (Interrupt-disable),
3 (Decimal), 6 (Overflow) and 7 (Negative) are preserved exactly. -/
theorem status_register_roundtrip (b : ℕ) (hb : b < 256) :
    (StatusRegister.from_byte b).to_byte = (b &&& 0xCF) ||| 0x20 ∧
    (StatusRegister.from_byte b).to_byte.testBit 5 = true ∧
    (StatusRegister.from_byte b).to_byte.testBit 4 = false ∧
    (StatusRegister.from_byte b).to_byte.testBit 0 = b.testBit 0 ∧
    (StatusRegister.from_byte b).to_byte.testBit 1 = b.testBit 1 ∧
    (StatusRegister.from_byte b).to_byte.testBit 2 = b.testBit 2 ∧
    (StatusRegister.from_byte b).to_byte.testBit 3 = b.testBit 3 ∧
    (StatusRegister.from_byte b).to_byte.testBit 6 = b.testBit 6 ∧
    (StatusRegister.from_byte b).to_byte.testBit 7 = b.testBit 7 := by
  revert b
  decide

/-- Witness for C2 at the concrete byte `0xDA`. -/
theorem status_register_roundtrip_witness :
    (StatusRegister.from_byte 0xDA).to_byte = (0xDA &&& 0xCF) ||| 0x20 ∧
    (StatusRegister.from_byte 0xDA).to_byte.testBit 5 = true ∧
    (StatusRegister.from_byte 0xDA).to_byte.testBit 4 = false ∧
    (StatusRegister.from_byte 0xDA).to_byte.testBit 0 = (0xDA : ℕ).testBit 0 ∧
    (StatusRegister.from_byte 0xDA).to_byte.testBit 1 = (0xDA : ℕ).testBit 1 ∧
    (StatusRegister.from_byte 0xDA).to_byte.testBit 2 = (0xDA : ℕ).testBit 2 ∧
    (StatusRegister.from_byte 0xDA).to_byte.testBit 3 = (0xDA : ℕ).testBit 3 ∧
    (StatusRegister.from_byte 0xDA).to_byte.testBit 6 = (0xDA : ℕ).testBit 6 ∧
    (StatusRegister.from_byte 0xDA).to_byte.testBit 7 = (0xDA : ℕ).testBit 7 :=
  status_register_roundtrip 0xDA (by norm_num)

/-- C3: a write to a RAM-window address is visible through every mirror of
that address, and out-of-window accesses read 0 and leave RAM untouched. -/
theorem ram_mirroring_and_oob_default (s : NES) (a a' v : ℕ) :
    (a < 0x2000 → a' < 0x2000 → a' % 2048 = a % 2048 →
      ((s.write8 a v).read8 a').1 = v) ∧
    (0x2000 ≤ a → (s.read8 a).1 = 0 ∧ (s.write8 a v).ram = s.ram) := by
  constructor
  · intro ha ha' hm
    simp only [NES.write8, NES.read8, if_pos ha, if_pos ha']
    have he : (⟨a' % 0x800, Nat.mod_lt a' (by norm_num)⟩ : Fin 2048)
        = ⟨a % 0x800, Nat.mod_lt a (by norm_num)⟩ := by
      apply Fin.ext
      simpa using hm
    rw [he, Function.update_same]
  · intro ha
    constructor
    · simp only [NES.read8, if_neg (by omega : ¬ a < 0x2000)]
    · simp only [NES.write8, if_neg (by omega : ¬ a < 0x2000)]

/-- Witness for C3: write `0xAB` at `0x0000`, read it back at the mirror
`0x0800`; read/write at the unmapped `0x2041` return 0 and change no RAM. -/
theorem ram_mirroring_and_oob_default_witness :
    ((NES.init.write8 0x0000 0xAB).read8 0x0800).1 = 0xAB ∧
    (NES.init.read8 0x2041).1 = 0 ∧
    (NES.init.write8 0x2041 0x55).ram = NES.init.ram :=
  ⟨(ram_mirroring_and_oob_default NES.init 0x0000 0x0800 0xAB).1
      (by norm_num) (by norm_num) (by norm_num),
   ((ram_mirroring_and_oob_default NES.init 0x2041 0x0800 0x55).2 (by norm_num)).1,
   ((ram_mirroring_and_oob_default NES.init 0x2041 0x0800 0x55).2 (by norm_num)).2⟩

/-- C8: `push16` then `pop16` returns the pushed 16-bit value and restores
the stack pointer; any 256 consecutive `push8` calls bring the stack pointer
back to its starting value (8-bit wraparound, no under/overflow error). -/
theorem stack_push16_pop16_roundtrip (s : NES) (v : ℕ)
    (hv : v < 65536) (hsp : s.SP < 256) :
    (s.push16 v).pop16.1 = v ∧
    (s.push16 v).pop16.2.SP = s.SP ∧
    (∀ vs : List ℕ, vs.length = 256 → (vs.foldl NES.push8 s).SP = s.SP) := by
  refine ⟨?_, ?_, ?_⟩
  · rw [NES.push16, push8_in s _ hsp, push8_in _ _ (by simp; omega)]
    rw [NES.pop16]
    rw [pop8_in, pop8_in]
    simp only [Function.update_apply, Fin.mk.injEq]
    split_ifs with h1 h2 h3 <;> try omega
    · exact high_low_recombine v hv
  · rw [NES.push16, push8_in s _ hsp, push8_in _ _ (by simp; omega)]
    rw [NES.pop16]
    rw [pop8_in, pop8_in]
    simp
    omega
  · intro vs hlen
    rw [sp_after_push_run vs s hsp, hlen]
    omega

set_option maxRecDepth 4096 in
/-- Witness for C8: push/pop `0x1234` from the power-on state, and 256
pushes of zeroes leave `SP` at its starting value `0xFD`. -/
theorem stack_push16_pop16_roundtrip_witness :
    (NES.init.push16 0x1234).pop16.1 = 0x1234 ∧
    (NES.init.push16 0x1234).pop16.2.SP = NES.init.SP ∧
    ((List.replicate 256 0).foldl NES.push8 NES.init).SP = NES.init.SP :=
  ⟨(stack_push16_pop16_roundtrip NES.init 0x1234 (by decide) (by decide)).1,
   (stack_push16_pop16_roundtrip NES.init 0x1234 (by decide) (by decide)).2.1,
   (stack_push16_pop16_roundtrip NES.init 0x1234 (by decide) (by decide)).2.2
      (List.replicate 256 0) (by decide)⟩

/-- C9: `read8` and `write8` each advance the cycle counter by exactly one,
mapped or unmapped alike; the composite bus operations advance it once per
constituent byte access, and no bus operation ever decreases it. -/
theorem cycle_counter_increments (s : NES) (addr v : ℕ) :
    ((s.read8 addr).2.cycles = s.cycles + 1) ∧
    ((s.write8 addr v).cycles = s.cycles + 1) ∧
    ((s.read_addr addr).2.cycles = s.cycles + 2) ∧
    (s.read_code.2.cycles = s.cycles + 1) ∧
    ((s.push16 v).cycles = s.cycles + 2) ∧
    (s.pop16.2.cycles = s.cycles + 2) ∧
    (s.cycles ≤ (s.read8 addr).2.cycles ∧ s.cycles ≤ (s.write8 addr v).cycles) := by
  have hr : ∀ (t : NES) (a : ℕ), (t.read8 a).2.cycles = t.cycles + 1 := by
    intro t a
    simp only [NES.read8]
    split <;> rfl
  have hw : ∀ (t : NES) (a x : ℕ), (t.write8 a x).cycles = t.cycles + 1 := by
    intro t a x
    simp only [NES.write8]
    split <;> rfl
  refine ⟨hr s addr, hw s addr v, ?_, ?_, ?_, ?_, ?_⟩
  · simp only [NES.read_addr, hr]
  · simp only [NES.read_code, hr]
  · simp only [NES.push16, NES.push8, hw]
  · simp only [NES.pop16, NES.pop8, hr]
  · exact ⟨by rw [hr]; omega, by rw [hw]; omega⟩

end NESEmu

namespace NESEmu

/-- The consumer loop pops the queue's prefix and pads with silence. -/
lemma popFrontFill_spec : ∀ (n : ℕ) (q : List ℚ),
    popFrontFill q n = (q.take n ++ List.replicate (n - q.length) 0, q.drop n) := by
  intro n
  induction n with
  | zero => intro q; cases q <;> simp [popFrontFill]
  | succ m ih =>
    intro q
    cases q with
    | nil => simp [popFrontFill, ih [], List.replicate_succ]
    | cons x xs => simp [popFrontFill, ih xs]

/-- C6 -/
theorem output_samples_fifo_pads_with_silence (b : SampleBuffer) (n : ℕ) :
    (b.output_samples n).1 = b.buffer.take n ++ List.replicate (n - b.buffer.length) 0 ∧
    (b.output_samples n).1.length = n ∧
    (b.output_samples n).2.buffer = b.buffer.drop n ∧
    (b.output_samples n).2.samples_per_second = b.samples_per_second := by
  refine ⟨?_, ?_, ?_, ?_⟩
  · simp [SampleBuffer.output_samples, popFrontFill_spec]
  · simp [SampleBuffer.output_samples, popFrontFill_spec]
    omega
  · simp [SampleBuffer.output_samples, popFrontFill_spec]
  · simp [SampleBuffer.output_samples, popFrontFill_spec]

/-- C5 -/
theorem oscillator_mute_thresholds (sq : SquareWave) (tw : TriangleWave)
    (start dur : ℚ) (n : ℕ) :
    (sq.period < 8 → sq.output_samples start dur n = List.replicate n 0) ∧
    (tw.period < 2 → tw.output_samples start dur n = List.replicate n 0) ∧
    (sq.period < 8 → ∀ x ∈ sq.output_samples start dur n, x = 0) ∧
    (tw.period < 2 → ∀ x ∈ tw.output_samples start dur n, x = 0) := by
  refine ⟨?_, ?_, ?_, ?_⟩
  · intro h; simp [SquareWave.output_samples, h]
  · intro h; simp [TriangleWave.output_samples, h]
  · intro h x hx
    rw [SquareWave.output_samples, if_pos h] at hx
    exact List.eq_of_mem_replicate hx
  · intro h x hx
    rw [TriangleWave.output_samples, if_pos h] at hx
    exact List.eq_of_mem_replicate hx

/-- Witness for C5 at period 5 (pulse) and period 1 (triangle). -/
theorem oscillator_mute_thresholds_witness :
    (SquareWave.mk 1 (1/2) 5).output_samples 0 1 3 = List.replicate 3 0 ∧
    (TriangleWave.mk 1).output_samples 0 1 3 = List.replicate 3 0 :=
  ⟨(oscillator_mute_thresholds (SquareWave.mk 1 (1/2) 5) (TriangleWave.mk 1) 0 1 3).1
      (by decide),
   (oscillator_mute_thresholds (SquareWave.mk 1 (1/2) 5) (TriangleWave.mk 1) 0 1 3).2.1
      (by decide)⟩

end NESEmu

namespace NESEmu

/-- bitflags `contains` of a single-bit flag tests that bit. -/
lemma and_pow_beq (x i : ℕ) : ((x &&& 2^i == 2^i) : Bool) = x.testBit i := by
  rw [Nat.and_two_pow]
  cases hx : x.testBit i
  · simp only [hx, Bool.toNat_false, Nat.zero_mul, beq_eq_false_iff_ne, ne_eq]
    exact (Nat.two_pow_pos i).ne
  · simp

/-- C7 -/
theorem channel_gating_and_toggle (a : APU) (e : ℕ) (i : ℕ) (_hi : i < 5) :
    (a.channel_enabled (2^i) =
      (a.host_enabled_channels.testBit i && a.guest_enabled_channels.testBit i)) ∧
    ((a.run_until_cycle e).sq1_samples =
      if a.channel_enabled SQUARE1 then
        a.square_wave1.output_samples a.startTime (a.stepDuration e) (a.samplesToOutput e)
      else listResize a.sq1_samples (a.samplesToOutput e) 0) ∧
    ((a.run_until_cycle e).sq2_samples =
      if a.channel_enabled SQUARE2 then
        a.square_wave2.output_samples a.startTime (a.stepDuration e) (a.samplesToOutput e)
      else listResize a.sq2_samples (a.samplesToOutput e) 0) ∧
    ((a.run_until_cycle e).tri_samples =
      if a.channel_enabled TRIANGLE then
        a.triangle_wave.output_samples a.startTime (a.stepDuration e) (a.samplesToOutput e)
      else listResize a.tri_samples (a.samplesToOutput e) 0) ∧
    ((a.toggle_channel (2^i)).host_enabled_channels.testBit i
      = !a.host_enabled_channels.testBit i) ∧
    (∀ j, j ≠ i → (a.toggle_channel (2^i)).host_enabled_channels.testBit j
      = a.host_enabled_channels.testBit j) ∧
    ((a.toggle_channel (2^i)).guest_enabled_channels = a.guest_enabled_channels) ∧
    ((a.toggle_channel (2^i)).square_wave1 = a.square_wave1) ∧
    ((a.toggle_channel (2^i)).square_wave2 = a.square_wave2) ∧
    ((a.toggle_channel (2^i)).triangle_wave = a.triangle_wave) ∧
    ((a.toggle_channel (2^i)).last_cpu_cycles = a.last_cpu_cycles) ∧
    ((a.toggle_channel (2^i)).output_buffer = a.output_buffer) := by
  refine ⟨?_, rfl, rfl, rfl, ?_, ?_, rfl, rfl, rfl, rfl, rfl, rfl⟩
  · rw [APU.channel_enabled, and_pow_beq, Nat.testBit_and]
  · simp [APU.toggle_channel, Nat.testBit_xor, Nat.testBit_two_pow]
  · intro j hj
    simp [APU.toggle_channel, Nat.testBit_xor, Nat.testBit_two_pow, (Ne.symm hj)]

/-- Witness for C7: the fresh APU with channel bit 0 (SQUARE1). -/
theorem channel_gating_and_toggle_witness :
    APU.new.channel_enabled (2^0) =
      (APU.new.host_enabled_channels.testBit 0 && APU.new.guest_enabled_channels.testBit 0) ∧
    (APU.new.toggle_channel (2^0)).host_enabled_channels.testBit 0
      = !APU.new.host_enabled_channels.testBit 0 :=
  ⟨(channel_gating_and_toggle APU.new 0 0 (by decide)).1,
   (channel_gating_and_toggle APU.new 0 0 (by decide)).2.2.2.2.1⟩

end NESEmu

namespace NESEmu

/-- The floating-point sample count truncation is exactly natural floor
division. -/
lemma samplesToOutput_eq (a : APU) (e : ℕ) :
    a.samplesToOutput e = a.sampleRate * (e - a.last_cpu_cycles) / CPU_FREQ := by
  rw [APU.samplesToOutput, APU.stepDuration, Int.floor_toNat]
  have h : (a.sampleRate : ℚ) * (((e - a.last_cpu_cycles : ℕ) : ℚ) / (CPU_FREQ : ℚ))
      = ((a.sampleRate * (e - a.last_cpu_cycles) : ℕ) : ℚ) / (CPU_FREQ : ℚ) := by
    push_cast
    ring
  rw [h, Nat.floor_div_eq_div]

/-- The mixing loop produces one sample per output index. -/
lemma run_until_cycle_mixed_length (a : APU) (e : ℕ) :
    (a.run_until_cycle e).mixed_samples.length = a.samplesToOutput e := by
  simp [APU.run_until_cycle]

/-- Projecting the output buffer out of `run_until_cycle`. -/
lemma run_until_cycle_ob (a : APU) (e : ℕ) :
    (a.run_until_cycle e).output_buffer =
      if ¬ (a.run_until_cycle e).mixed_samples.isEmpty then
        a.output_buffer.map (fun b => b.write_samples (a.run_until_cycle e).mixed_samples)
      else a.output_buffer := rfl

/-- A flush that owes no samples leaves the output buffer untouched. -/
lemma run_until_cycle_ob_of_zero (s : APU) (e : ℕ) (h : s.samplesToOutput e = 0) :
    (s.run_until_cycle e).output_buffer = s.output_buffer := by
  simp [APU.run_until_cycle, h]

/-- C1 -/
theorem run_until_cycle_count_and_watermark (a : APU) (e : ℕ)
    (_he : a.last_cpu_cycles ≤ e) :
    ((a.run_until_cycle e).last_cpu_cycles = e) ∧
    (a.output_buffer = none → (a.run_until_cycle e).output_buffer = none) ∧
    (∀ b : SampleBuffer, a.output_buffer = some b →
      ∃ appended : List ℚ,
        (a.run_until_cycle e).output_buffer = some (b.write_samples appended) ∧
        appended.length = b.samples_per_second * (e - a.last_cpu_cycles) / CPU_FREQ) ∧
    (((a.run_until_cycle e).run_until_cycle e).output_buffer
      = (a.run_until_cycle e).output_buffer) := by
  refine ⟨rfl, ?_, ?_, ?_⟩
  · intro hnone
    rw [run_until_cycle_ob, hnone]
    simp
  · intro b hb
    refine ⟨(a.run_until_cycle e).mixed_samples, ?_, ?_⟩
    · rw [run_until_cycle_ob, hb]
      by_cases hem : (a.run_until_cycle e).mixed_samples.isEmpty
      · rw [if_neg (by simpa using hem)]
        have hempty : (a.run_until_cycle e).mixed_samples = [] := by
          simpa [List.isEmpty_iff] using hem
        rw [hempty]
        simp [SampleBuffer.write_samples]
      · rw [if_pos (by simpa using hem)]
        rfl
    · rw [run_until_cycle_mixed_length, samplesToOutput_eq]
      congr 2
      simp [APU.sampleRate, hb]
  · apply run_until_cycle_ob_of_zero
    rw [samplesToOutput_eq]
    have hlast : (a.run_until_cycle e).last_cpu_cycles = e := rfl
    rw [hlast]
    simp

end NESEmu

namespace NESEmu

/-- Witness for C1: a fresh APU with a 44100 Hz device, flushed through one
second of CPU time (1789773 cycles), appends 44100 samples. -/
theorem run_until_cycle_count_and_watermark_witness :
    (((APU.new.attach_output_device (SampleBuffer.new 44100)).run_until_cycle
        1789773).last_cpu_cycles = 1789773) ∧
    ∃ appended : List ℚ,
      ((APU.new.attach_output_device (SampleBuffer.new 44100)).run_until_cycle
          1789773).output_buffer
        = some ((SampleBuffer.new 44100).write_samples appended) ∧
      appended.length = (SampleBuffer.new 44100).samples_per_second *
        (1789773 - (APU.new.attach_output_device
          (SampleBuffer.new 44100)).last_cpu_cycles) / CPU_FREQ :=
  ⟨(run_until_cycle_count_and_watermark
      (APU.new.attach_output_device (SampleBuffer.new 44100)) 1789773 (by decide)).1,
   (run_until_cycle_count_and_watermark
      (APU.new.attach_output_device (SampleBuffer.new 44100)) 1789773 (by decide)).2.2.1
      (SampleBuffer.new 44100) rfl⟩

/-- C4 -/
theorem mixed_sample_formula (a : APU) (e i : ℕ)
    (hi : i < (a.run_until_cycle e).mixed_samples.length) :
    (a.run_until_cycle e).mixed_samples.getD i 0 =
      mix ((a.run_until_cycle e).sq1_samples.getD i 0)
          ((a.run_until_cycle e).sq2_samples.getD i 0)
          ((a.run_until_cycle e).tri_samples.getD i 0) 0 0 ∧
    mix 1 0 0 0 0 = 0.00752 := by
  constructor
  · rw [run_until_cycle_mixed_length] at hi
    show ((List.range (a.samplesToOutput e)).map _).getD i 0 = _
    rw [List.getD_eq_getElem?_getD, List.getElem?_map, List.getElem?_range hi]
    rfl
  · rw [mix]
    norm_num

end NESEmu

namespace NESEmu

/-- Witness for C4: a fresh APU with a device at the CPU clock rate yields
one sample per cycle; instantiate at its first mixed sample. -/
theorem mixed_sample_formula_witness :
    ((APU.new.attach_output_device (SampleBuffer.new CPU_FREQ)).run_until_cycle
        1).mixed_samples.getD 0 0 =
      mix (((APU.new.attach_output_device (SampleBuffer.new CPU_FREQ)).run_until_cycle
              1).sq1_samples.getD 0 0)
          (((APU.new.attach_output_device (SampleBuffer.new CPU_FREQ)).run_until_cycle
              1).sq2_samples.getD 0 0)
          (((APU.new.attach_output_device (SampleBuffer.new CPU_FREQ)).run_until_cycle
              1).tri_samples.getD 0 0) 0 0 ∧
    mix 1 0 0 0 0 = 0.00752 :=
  mixed_sample_formula (APU.new.attach_output_device (SampleBuffer.new CPU_FREQ)) 1 0
    (by rw [run_until_cycle_mixed_length, samplesToOutput_eq]; decide)

/-- Every element of a zero-list resized with zero padding is zero. -/
lemma listResize_all_zero {l : List ℚ} (h : ∀ x ∈ l, x = 0) (n : ℕ) :
    ∀ x ∈ listResize l n 0, x = 0 := by
  intro x hx
  rw [listResize, List.mem_append] at hx
  rcases hx with hx | hx
  · exact h x (List.mem_of_mem_take hx)
  · exact List.eq_of_mem_replicate hx

/-- `getD` of an all-zero list is zero. -/
lemma getD_all_zero {l : List ℚ} (h : ∀ x ∈ l, x = 0) (i : ℕ) :
    l.getD i 0 = 0 := by
  rcases lt_or_ge i l.length with hi | hi
  · rw [List.getD_eq_getElem _ _ hi]
    exact h _ (List.getElem_mem hi)
  · rw [List.getD_eq_default _ _ hi]

/-- C10 -/
theorem fresh_apu_is_silent :
    APU.new.guest_enabled_channels = 0 ∧
    APU.new.host_enabled_channels = ALL_CHANNELS ∧
    (∀ c ∈ [SQUARE1, SQUARE2, TRIANGLE, NOISE, DMC], APU.new.channel_enabled c = false) ∧
    (∀ a : APU, a.guest_enabled_channels = 0 →
      (∀ x ∈ a.sq1_samples, x = 0) → (∀ x ∈ a.sq2_samples, x = 0) →
      (∀ x ∈ a.tri_samples, x = 0) → ∀ e : ℕ,
      ((a.run_until_cycle e).guest_enabled_channels = 0 ∧
       (∀ x ∈ (a.run_until_cycle e).sq1_samples, x = 0) ∧
       (∀ x ∈ (a.run_until_cycle e).sq2_samples, x = 0) ∧
       (∀ x ∈ (a.run_until_cycle e).tri_samples, x = 0) ∧
       (∀ x ∈ (a.run_until_cycle e).mixed_samples, x = 0) ∧
       (∀ b : SampleBuffer, a.output_buffer = some b →
         ∃ appended : List ℚ,
           (a.run_until_cycle e).output_buffer = some (b.write_samples appended) ∧
           ∀ x ∈ appended, x = 0))) := by
  refine ⟨rfl, rfl, by decide, ?_⟩
  intro a hg h1 h2 h3 e
  have hce : ∀ c : ℕ, c ≠ 0 → a.channel_enabled c = false := by
    intro c hc
    rw [APU.channel_enabled, hg, Nat.and_zero, Nat.zero_and]
    simpa using (Ne.symm hc)
  have hsq1 : (a.run_until_cycle e).sq1_samples
      = listResize a.sq1_samples (a.samplesToOutput e) 0 := by
    show (if a.channel_enabled SQUARE1 then _ else _) = _
    rw [hce SQUARE1 (by decide)]
    simp
  have hsq2 : (a.run_until_cycle e).sq2_samples
      = listResize a.sq2_samples (a.samplesToOutput e) 0 := by
    show (if a.channel_enabled SQUARE2 then _ else _) = _
    rw [hce SQUARE2 (by decide)]
    simp
  have htri : (a.run_until_cycle e).tri_samples
      = listResize a.tri_samples (a.samplesToOutput e) 0 := by
    show (if a.channel_enabled TRIANGLE then _ else _) = _
    rw [hce TRIANGLE (by decide)]
    simp
  have hz1 := listResize_all_zero h1 (a.samplesToOutput e)
  have hz2 := listResize_all_zero h2 (a.samplesToOutput e)
  have hz3 := listResize_all_zero h3 (a.samplesToOutput e)
  have hmix : ∀ x ∈ (a.run_until_cycle e).mixed_samples, x = 0 := by
    intro x hx
    have : (a.run_until_cycle e).mixed_samples = (List.range (a.samplesToOutput e)).map
        (fun i => mix ((a.run_until_cycle e).sq1_samples.getD i 0)
          ((a.run_until_cycle e).sq2_samples.getD i 0)
          ((a.run_until_cycle e).tri_samples.getD i 0) 0 0) := rfl
    rw [this, List.mem_map] at hx
    obtain ⟨i, _, hfi⟩ := hx
    rw [hsq1, hsq2, htri] at hfi
    rw [getD_all_zero hz1, getD_all_zero hz2, getD_all_zero hz3] at hfi
    rw [← hfi, mix]
    norm_num
  refine ⟨hg, ?_, ?_, ?_, hmix, ?_⟩
  · rw [hsq1]; exact hz1
  · rw [hsq2]; exact hz2
  · rw [htri]; exact hz3
  · intro b hb
    refine ⟨(a.run_until_cycle e).mixed_samples, ?_, hmix⟩
    rw [run_until_cycle_ob, hb]
    by_cases hem : (a.run_until_cycle e).mixed_samples.isEmpty
    · rw [if_neg (by simpa using hem)]
      have hempty : (a.run_until_cycle e).mixed_samples = [] := by
        simpa [List.isEmpty_iff] using hem
      rw [hempty]
      simp [SampleBuffer.write_samples]
    · rw [if_pos (by simpa using hem)]
      rfl

end NESEmu

namespace NESEmu

/-- Witness for C10: a fresh APU with a 44.1 kHz device flushed for 100000
cycles keeps an empty guest mask and only ever mixes silence. -/
theorem fresh_apu_is_silent_witness :
    ((APU.new.attach_output_device (SampleBuffer.new 44100)).run_until_cycle
        100000).guest_enabled_channels = 0 ∧
    ((APU.new.attach_output_device (SampleBuffer.new 44100)).run_until_cycle
        100000).mixed_samples.getD 0 0 = 0 :=
  ⟨(fresh_apu_is_silent.2.2.2 (APU.new.attach_output_device (SampleBuffer.new 44100))
      rfl (by intro x hx; cases hx) (by intro x hx; cases hx) (by intro x hx; cases hx)
      100000).1,
   getD_all_zero
     (fresh_apu_is_silent.2.2.2 (APU.new.attach_output_device (SampleBuffer.new 44100))
        rfl (by intro x hx; cases hx) (by intro x hx; cases hx) (by intro x hx; cases hx)
        100000).2.2.2.2.1 0⟩

end NESEmu
